import Mathlib

/-!
Shallow embedding of the libezdxf core layer:

* the DXF tag model (`tag.hpp`): `DXFTag` base type plus the concrete
  subclasses `StringTag`, `BinaryTag`, `IntegerTag`, `RealTag`, `Vec3Tag`
  and `Vec2Tag`, with the type-checked accessors and predicates;
* the group-code classifier (`tag_types.cpp`): the band computation and
  its memoization cache;
* the handle-indexed `ObjectTable` (`object_table.hpp`): `get`, `has`,
  `contains`, `store` and `aquire_free_handle`.

The C++ classes become a sum type tagged by `TagType`; throwing accessors
become `Except`-valued functions; the mutable table becomes explicit state
passing.  Machine integers are modelled as `Nat`/`Int` with an explicit
`% 2 ^ 64` where 64-bit wraparound matters.
-/

namespace ezdxf

/-- Modelled from the spec: `Real` is declared in `type.hpp`, which is not
under `src/`; the spec says real values are 64-bit doubles.  No claim does
arithmetic on reals — they are only stored and retrieved — so `Float` is
used purely as an inert carrier type. -/
abbrev Real := Float

/-- Modelled from the spec: `Bytes` is declared in `type.hpp`, which is not
under `src/`; the spec says binary data is a byte sequence of arbitrary
length, including zero bytes. -/
abbrev Bytes := List UInt8

/-- Modelled from the spec: `Handle` is declared in `type.hpp`, which is not
under `src/`; the spec says a handle is an unsigned 64-bit identifier, with
0 reserved and always invalid.  The definitions below spell the type out as
`Nat` (with an explicit `% 2 ^ 64` where 64-bit wraparound matters). -/
abbrev Handle := Nat

namespace math

/-- Modelled from the spec: `Vec3` lives in `math/vec3.hpp`, which is not
under `src/`; the spec says a vector tag carries a 3-component numeric
triple (x, y, z). -/
structure Vec3 where
  x : Real
  y : Real
  z : Real

end math

namespace tag

/-- `enum class TagType` from `tag.hpp`. -/
inductive TagType where
  | kUndefined
  | kString
  | kInteger
  | kReal
  | kVec3
  | kVec2
  | kBinaryData
deriving DecidableEq

/-- The stored value of a tag: one variant per concrete `DXFTag` subclass,
plus `undefined` for the base-class state (`DXFTag(code)` alone). -/
inductive TagValue where
  | undefined
  | stringV (value_ : String)
  | integerV (value_ : Int)
  | realV (value_ : Real)
  | vec3V (value_ : math.Vec3)
  | vec2V (value_ : math.Vec3)
  | binaryV (value_ : Bytes)

/-- A DXF tag: group code plus tagged value (the whole `DXFTag` class
hierarchy of `tag.hpp` flattened into one sum type). -/
structure DXFTag where
  code : Int
  value : TagValue

/-- The error raised by a mistyped accessor: `std::bad_cast` in the source,
the spec's TypeMismatch condition. -/
inductive TagCastError where
  | typeMismatch
deriving DecidableEq

/-- `DXFTag::group_code()`. -/
def DXFTag.group_code (t : DXFTag) : Int := t.code

/-- The virtual `type()` member: each subclass reports its own kind, the
base class reports `kUndefined`. -/
def DXFTag.type (t : DXFTag) : TagType :=
  match t.value with
  | .undefined => .kUndefined
  | .stringV _ => .kString
  | .integerV _ => .kInteger
  | .realV _ => .kReal
  | .vec3V _ => .kVec3
  | .vec2V _ => .kVec2
  | .binaryV _ => .kBinaryData

/-- `GroupCode::kError`. -/
def GroupCode.kError : Int := -1

/-- `DXFTag::is_error_tag()`. -/
def DXFTag.is_error_tag (t : DXFTag) : Bool := t.code == GroupCode.kError

/-- `DXFTag::is_undefined()`. -/
def DXFTag.is_undefined (t : DXFTag) : Bool := t.type == TagType.kUndefined

/-- `DXFTag::has_string_value()`. -/
def DXFTag.has_string_value (t : DXFTag) : Bool := t.type == TagType.kString

/-- `DXFTag::has_binary_data()`. -/
def DXFTag.has_binary_data (t : DXFTag) : Bool := t.type == TagType.kBinaryData

/-- `DXFTag::has_real_value()`. -/
def DXFTag.has_real_value (t : DXFTag) : Bool := t.type == TagType.kReal

/-- `DXFTag::has_integer_value()`. -/
def DXFTag.has_integer_value (t : DXFTag) : Bool := t.type == TagType.kInteger

/-- `DXFTag::has_vec3_value()`: true for `kVec2` as well as `kVec3`. -/
def DXFTag.has_vec3_value (t : DXFTag) : Bool :=
  t.type == TagType.kVec2 || t.type == TagType.kVec3

/-- `DXFTag::export_vec2()`: the spec's `wants_2d_export` — true only for
`kVec2`. -/
def DXFTag.export_vec2 (t : DXFTag) : Bool := t.type == TagType.kVec2

/-- `DXFTag::string()`: `StringTag` overrides it, every other kind throws
`std::bad_cast`. -/
def DXFTag.string (t : DXFTag) : Except TagCastError String :=
  match t.value with
  | .stringV v => .ok v
  | _ => .error .typeMismatch

/-- `DXFTag::bytes()`: `BinaryTag` overrides it, every other kind throws
`std::bad_cast`. -/
def DXFTag.bytes (t : DXFTag) : Except TagCastError Bytes :=
  match t.value with
  | .binaryV v => .ok v
  | _ => .error .typeMismatch

/-- `DXFTag::integer()`: `IntegerTag` overrides it, every other kind throws
`std::bad_cast`. -/
def DXFTag.integer (t : DXFTag) : Except TagCastError Int :=
  match t.value with
  | .integerV v => .ok v
  | _ => .error .typeMismatch

/-- `DXFTag::real()`: `RealTag` overrides it, every other kind throws
`std::bad_cast`. -/
def DXFTag.real (t : DXFTag) : Except TagCastError Real :=
  match t.value with
  | .realV v => .ok v
  | _ => .error .typeMismatch

/-- `DXFTag::vec3()`: `Vec3Tag` overrides it and `Vec2Tag` inherits the
override (a `Vec2Tag` stores its value as `Vec3`), every other kind throws
`std::bad_cast`. -/
def DXFTag.vec3 (t : DXFTag) : Except TagCastError math.Vec3 :=
  match t.value with
  | .vec3V v => .ok v
  | .vec2V v => .ok v
  | _ => .error .typeMismatch

/-- `DXFTag::equals(code_, s)`: the spec's `equals_structural` — the `&&`
chain checks `type() == kString` before calling `string()`, so the string
accessor is only consulted on string tags and the function never throws. -/
def DXFTag.equals (t : DXFTag) (code_ : Int) (s : String) : Bool :=
  t.code == code_ && t.type == TagType.kString &&
    (match t.value with
     | .stringV v => s == v
     | _ => false)

/-- The base-class constructor `DXFTag(code)`: an undefined tag. -/
def DXFTag.base (code : Int) : DXFTag := ⟨code, .undefined⟩

/-- `StringTag(code, value)`. -/
def StringTag (code : Int) (value : String) : DXFTag := ⟨code, .stringV value⟩

/-- `BinaryTag(code, value)`. -/
def BinaryTag (code : Int) (value : Bytes) : DXFTag := ⟨code, .binaryV value⟩

/-- `IntegerTag(code, value)` (value is an `int64_t`; only stored, never
computed with, so plain `Int` carries it). -/
def IntegerTag (code : Int) (value : Int) : DXFTag := ⟨code, .integerV value⟩

/-- `RealTag(code, value)`. -/
def RealTag (code : Int) (value : Real) : DXFTag := ⟨code, .realV value⟩

/-- `Vec3Tag(code, x, y, z)`. -/
def Vec3Tag (code : Int) (x y z : Real) : DXFTag := ⟨code, .vec3V ⟨x, y, z⟩⟩

/-- `Vec2Tag(code, x, y)`: constructs through `Vec3Tag(code, x, y, 0.0)`,
overriding only `type()` to `kVec2`. -/
def Vec2Tag (code : Int) (x y : Real) : DXFTag := ⟨code, .vec2V ⟨x, y, 0.0⟩⟩

end tag

/-- Modelled from the spec: the classifier's `TagType` enum is declared in
`tag_types.hpp`, which is not under `src/`; the spec gives its four
categories — vertex-component, decimal, integer and text. -/
inductive TagType where
  | TEXT
  | VERTEX
  | DECIMAL
  | INTEGER
deriving DecidableEq

/-- The band computation inside `group_code_type` (`tag_types.cpp`): the
`tag_type = TEXT` default followed by the three `if`/`else if` band tests. -/
def group_code_band (code : Int) : TagType :=
  if (10 ≤ code ∧ code < 19) ∨ (110 ≤ code ∧ code < 113) ∨
     (210 ≤ code ∧ code < 214) ∨ (1010 ≤ code ∧ code < 1014) then
    TagType.VERTEX
  else if (19 ≤ code ∧ code < 60) ∨ (113 ≤ code ∧ code < 150) ∨
          (214 ≤ code ∧ code < 240) ∨ (460 ≤ code ∧ code < 470) ∨
          (1014 ≤ code ∧ code < 1060) then
    TagType.DECIMAL
  else if (60 ≤ code ∧ code < 80) ∨ (90 ≤ code ∧ code < 100) ∨
          (160 ≤ code ∧ code < 180) ∨ (270 ≤ code ∧ code < 290) ∨
          (370 ≤ code ∧ code < 390) ∨ (400 ≤ code ∧ code < 410) ∨
          (420 ≤ code ∧ code < 430) ∨ (440 ≤ code ∧ code < 460) ∨
          (1060 ≤ code ∧ code < 1072) then
    TagType.INTEGER
  else
    TagType.TEXT

/-- The process-wide `group_code_cache` (`std::unordered_map<int, TagType>`)
as an association list; insertion order is irrelevant to lookups. -/
abbrev GroupCodeCache := List (Int × TagType)

/-- `group_code_cache.find(code)`. -/
def cache_find (cache : GroupCodeCache) (code : Int) : Option TagType :=
  (cache.find? (fun p => p.1 == code)).map (fun p => p.2)

/-- `group_code_type(code)` from `tag_types.cpp`, with the mutable
process-wide cache made an explicit argument and result: return the cached
category when present, otherwise compute the band value, insert it, and
return it. -/
def group_code_type (cache : GroupCodeCache) (code : Int) :
    TagType × GroupCodeCache :=
  match cache_find cache code with
  | some t => (t, cache)
  | none =>
      let tag_type := group_code_band code
      (tag_type, (code, tag_type) :: cache)

/-- Modelled from the spec: `acdb::Object` (`acdb/object.hpp` is not under
`src/`) is an externally defined payload, opaque to this core, exposing
`get_handle()`; `payload` distinguishes distinct objects. -/
structure Object where
  handle : Nat
  payload : Nat
deriving DecidableEq

/-- `Object::get_handle()`. -/
def Object.get_handle (o : Object) : Nat := o.handle

/-- `ObjectTable::TableEntry`. -/
structure TableEntry where
  handle : Nat
  object : Object
deriving DecidableEq

/-- `ObjectTable::Bucket` (`std::vector<TableEntry>`). -/
abbrev Bucket := List TableEntry

/-- `count = 1 << N` with the default template parameter `N = 12`. -/
def bucket_count : Nat := 2 ^ 12

/-- `hash_mask = count - 1`. -/
def hash_mask : Nat := bucket_count - 1

/-- `ObjectTable<12>`: the fixed bucket vector plus the two counters.  The
bucket vector is modelled as a function from (masked) index to bucket. -/
structure ObjectTable where
  buckets : Nat → Bucket
  max_handle : Nat
  size_ : Nat

/-- The error raised by `ObjectTable::store` (both are
`std::invalid_argument` in the source; the spec names them InvalidHandle
and DuplicateBinding). -/
inductive StoreError where
  | invalidHandle
  | duplicateBinding
deriving DecidableEq

/-- A freshly constructed `ObjectTable`: all buckets empty,
`max_handle_{0}`, `size_{0}`. -/
def ObjectTable.init : ObjectTable :=
  { buckets := fun _ => [], max_handle := 0, size_ := 0 }

/-- `ObjectTable::get_bucket(handle)`: `buckets[handle & hash_mask]`.
Note the source returns the `Bucket` BY VALUE (a copy), not by reference;
in this functional model every access is a copy, and the consequence shows
up in `store` below, which never writes a bucket back. -/
def ObjectTable.get_bucket (t : ObjectTable) (handle : Nat) : Bucket :=
  t.buckets (handle &&& hash_mask)

/-- `ObjectTable::size()`. -/
def ObjectTable.size (t : ObjectTable) : Nat := t.size_

/-- `ObjectTable::get(handle, default_)`: linear scan of the selected
bucket, returning the entry's object or the supplied default. -/
def ObjectTable.get (t : ObjectTable) (handle : Nat)
    (default_ : Option Object) : Option Object :=
  match (t.get_bucket handle).find? (fun e => e.handle == handle) with
  | some e => some e.object
  | none => default_

/-- `ObjectTable::aquire_free_handle()`: `return ++max_handle_` on an
unsigned 64-bit counter, hence the explicit wraparound. -/
def ObjectTable.aquire_free_handle (t : ObjectTable) : Nat × ObjectTable :=
  let m := (t.max_handle + 1) % 2 ^ 64
  (m, { t with max_handle := m })

/-- `ObjectTable::has(handle)`: the `0` handle is invalid per definition,
otherwise true iff `get` finds an entry. -/
def ObjectTable.has (t : ObjectTable) (handle : Nat) : Bool :=
  handle != 0 && (t.get handle none).isSome

/-- `ObjectTable::contains(object)`. -/
def ObjectTable.contains (t : ObjectTable) (o : Object) : Bool :=
  t.has o.get_handle

/-- `ObjectTable::store(object)`, faithful to the source: handle 0 throws;
a handle reported present throws; otherwise the source appends the entry to
the bucket COPY returned by `get_bucket` (`get_bucket(handle).emplace_back`
mutates a temporary), so the new entry never reaches `buckets` — only
`size_` and `max_handle_` are updated. -/
def ObjectTable.store (t : ObjectTable) (object : Object) :
    Except StoreError ObjectTable :=
  let handle := object.get_handle
  if handle = 0 then
    .error .invalidHandle
  else if !(t.has handle) then
    let _bucket_copy := t.get_bucket handle ++ [⟨handle, object⟩]
    .ok { t with
          size_ := t.size_ + 1,
          max_handle := if handle > t.max_handle then handle else t.max_handle }
  else
    .error .duplicateBinding

/-- One client call against the table: either `aquire_free_handle` or
`store` of a given object. -/
inductive TableOp where
  | acquire
  | storeOp (o : Object)
deriving DecidableEq

/-- An observable event of a run: a handle returned by the allocator, or a
handle successfully stored. -/
inductive TableEvent where
  | issued (h : Nat)
  | stored (h : Nat)
deriving DecidableEq

/-- The handle carried by an event. -/
def TableEvent.val : TableEvent → Nat
  | .issued h => h
  | .stored h => h

/-- Run a sequence of table operations, collecting the events; a `store`
that throws produces no event. -/
def runOps : ObjectTable → List TableOp → ObjectTable × List TableEvent
  | t, [] => (t, [])
  | t, .acquire :: rest =>
      ((runOps (t.aquire_free_handle).2 rest).1,
        .issued (t.aquire_free_handle).1 :: (runOps (t.aquire_free_handle).2 rest).2)
  | t, .storeOp o :: rest =>
      match t.store o with
      | .ok next =>
          ((runOps next rest).1, .stored o.get_handle :: (runOps next rest).2)
      | .error _ => runOps t rest

/-- No 64-bit wraparound along a run: every allocator call happens with
`max_handle_ + 1` still below `2 ^ 64`, and every stored handle is a
genuine `uint64_t` value. -/
def noWrap : ObjectTable → List TableOp → Bool
  | _, [] => true
  | t, .acquire :: rest =>
      decide (t.max_handle + 1 < 2 ^ 64) &&
        noWrap (t.aquire_free_handle).2 rest
  | t, .storeOp o :: rest =>
      decide (o.get_handle < 2 ^ 64) &&
        (match t.store o with
         | .ok next => noWrap next rest
         | .error _ => noWrap t rest)

/-! ## Theorems -/

/-- C5: a `Vec2Tag(code, x, y)` has a vector value, wants 2D export, its
`vec3()` accessor yields the very triple a `Vec3Tag(code, x, y, 0)` yields,
yet its kind (`kVec2`) differs from that `Vec3Tag`'s kind, and the
`Vec3Tag` does not want 2D export. -/
theorem vec2_tag_spec (code : Int) (x y : Real) :
    (tag.Vec2Tag code x y).has_vec3_value = true ∧
    (tag.Vec2Tag code x y).export_vec2 = true ∧
    (tag.Vec2Tag code x y).vec3 = (tag.Vec3Tag code x y 0.0).vec3 ∧
    (tag.Vec2Tag code x y).type ≠ (tag.Vec3Tag code x y 0.0).type ∧
    (tag.Vec3Tag code x y 0.0).export_vec2 = false := by
  exact ⟨rfl, rfl, rfl, fun h => tag.TagType.noConfusion h, rfl⟩

/-- C6: a `BinaryTag` over any byte sequence (the empty one included) is a
well-formed tag with `has_binary_data`, its `bytes()` accessor returns the
constructed sequence unmodified, and `bytes()` on a `StringTag` fails with
the TypeMismatch condition (`std::bad_cast`). -/
theorem binary_tag_spec (code : Int) (b : Bytes) (c : Int) (s : String) :
    (tag.BinaryTag code b).has_binary_data = true ∧
    (tag.BinaryTag code b).bytes = .ok b ∧
    (tag.StringTag c s).bytes = .error .typeMismatch :=
  ⟨rfl, rfl, rfl⟩

/-- C7: for every tag of any kind, `equals(c, s)` returns `true` exactly
when the tag's kind is `kString`, its group code is `c` and its stored text
is `s`; being `Bool`-valued on all tags, it never raises TypeMismatch, so
no prior type check is needed. -/
theorem equals_structural_spec (t : tag.DXFTag) (c : Int) (s : String) :
    t.equals c s = true ↔
      t.type = tag.TagType.kString ∧ t.code = c ∧ t.string = .ok s := by
  obtain ⟨code, v⟩ := t
  cases v with
  | stringV v =>
      simp only [tag.DXFTag.equals, tag.DXFTag.type, tag.DXFTag.string,
        Bool.and_eq_true, beq_iff_eq, beq_self_eq_true, and_true, true_and,
        Except.ok.injEq, eq_self_iff_true]
      exact and_congr_right fun _ => eq_comm
  | undefined => simp [tag.DXFTag.equals, tag.DXFTag.type]
  | integerV v => simp [tag.DXFTag.equals, tag.DXFTag.type]
  | realV v => simp [tag.DXFTag.equals, tag.DXFTag.type]
  | vec3V v => simp [tag.DXFTag.equals, tag.DXFTag.type]
  | vec2V v => simp [tag.DXFTag.equals, tag.DXFTag.type]
  | binaryV v => simp [tag.DXFTag.equals, tag.DXFTag.type]

/-- C10: the base-class tag state (kind `kUndefined`): all five typed
accessors fail with TypeMismatch, every value predicate is `false`, and
`is_undefined` is `true`. -/
theorem undefined_tag_spec (code : Int) :
    (tag.DXFTag.base code).string = .error .typeMismatch ∧
    (tag.DXFTag.base code).bytes = .error .typeMismatch ∧
    (tag.DXFTag.base code).integer = .error .typeMismatch ∧
    (tag.DXFTag.base code).real = .error .typeMismatch ∧
    (tag.DXFTag.base code).vec3 = .error .typeMismatch ∧
    (tag.DXFTag.base code).has_string_value = false ∧
    (tag.DXFTag.base code).has_binary_data = false ∧
    (tag.DXFTag.base code).has_integer_value = false ∧
    (tag.DXFTag.base code).has_real_value = false ∧
    (tag.DXFTag.base code).has_vec3_value = false ∧
    (tag.DXFTag.base code).export_vec2 = false ∧
    (tag.DXFTag.base code).is_undefined = true :=
  ⟨rfl, rfl, rfl, rfl, rfl, rfl, rfl, rfl, rfl, rfl, rfl, rfl⟩

/-- Helper: a classify call against the fresh (empty) cache returns the
band value. -/
theorem group_code_type_fresh_eq (code : Int) :
    (group_code_type [] code).1 = group_code_band code := rfl

/-- C3: with the fresh cache, every code in [10,19)∪[110,113)∪[210,214)∪
[1010,1014) classifies as VERTEX; the boundary codes 19, 113, 214 and 1014
classify as DECIMAL; 0 and every code outside all three bands classify as
TEXT.  Classification is total by construction (`group_code_type` returns a
`TagType` for every `Int`, no error variant exists). -/
theorem group_code_type_bands (code : Int) :
    (((10 ≤ code ∧ code < 19) ∨ (110 ≤ code ∧ code < 113) ∨
      (210 ≤ code ∧ code < 214) ∨ (1010 ≤ code ∧ code < 1014)) →
      (group_code_type [] code).1 = TagType.VERTEX) ∧
    (group_code_type [] 19).1 = TagType.DECIMAL ∧
    (group_code_type [] 113).1 = TagType.DECIMAL ∧
    (group_code_type [] 214).1 = TagType.DECIMAL ∧
    (group_code_type [] 1014).1 = TagType.DECIMAL ∧
    (group_code_type [] 0).1 = TagType.TEXT ∧
    ((¬ ((10 ≤ code ∧ code < 19) ∨ (110 ≤ code ∧ code < 113) ∨
         (210 ≤ code ∧ code < 214) ∨ (1010 ≤ code ∧ code < 1014)) ∧
      ¬ ((19 ≤ code ∧ code < 60) ∨ (113 ≤ code ∧ code < 150) ∨
         (214 ≤ code ∧ code < 240) ∨ (460 ≤ code ∧ code < 470) ∨
         (1014 ≤ code ∧ code < 1060)) ∧
      ¬ ((60 ≤ code ∧ code < 80) ∨ (90 ≤ code ∧ code < 100) ∨
         (160 ≤ code ∧ code < 180) ∨ (270 ≤ code ∧ code < 290) ∨
         (370 ≤ code ∧ code < 390) ∨ (400 ≤ code ∧ code < 410) ∨
         (420 ≤ code ∧ code < 430) ∨ (440 ≤ code ∧ code < 460) ∨
         (1060 ≤ code ∧ code < 1072))) →
      (group_code_type [] code).1 = TagType.TEXT) := by
  refine ⟨?_, by decide, by decide, by decide, by decide, by decide, ?_⟩
  · intro h
    rw [group_code_type_fresh_eq]
    simp only [group_code_band]
    rw [if_pos h]
  · rintro ⟨h1, h2, h3⟩
    rw [group_code_type_fresh_eq]
    simp only [group_code_band]
    rw [if_neg h1, if_neg h2, if_neg h3]

/-- Witness for C3 at the concrete codes 10 (VERTEX band) and 5000
(outside every band). -/
theorem group_code_type_bands_witness :
    (group_code_type [] 10).1 = TagType.VERTEX ∧
    (group_code_type [] 5000).1 = TagType.TEXT :=
  ⟨(group_code_type_bands 10).1 (by decide),
   (group_code_type_bands 5000).2.2.2.2.2.2 (by decide)⟩

/-- The cache only ever holds what the band computation would produce. -/
def CacheOK (cache : GroupCodeCache) : Prop :=
  ∀ p ∈ cache, p.2 = group_code_band p.1

/-- C8: classify is pure and idempotent — whenever the cache holds only
values the band computation produced (as every reachable cache does,
`CacheOK` being preserved), a call returns exactly the band value, the
cache stays correct, and an immediately repeated call with the same code
returns the same category. -/
theorem group_code_type_idempotent (cache : GroupCodeCache) (code : Int)
    (hc : CacheOK cache) :
    (group_code_type cache code).1 = group_code_band code ∧
    CacheOK (group_code_type cache code).2 ∧
    (group_code_type (group_code_type cache code).2 code).1 =
      (group_code_type cache code).1 := by
  rcases hfind : cache_find cache code with _ | t
  · have hnew : group_code_type cache code =
        (group_code_band code, (code, group_code_band code) :: cache) := by
      simp [group_code_type, hfind]
    refine ⟨by rw [hnew], ?_, ?_⟩
    · rw [hnew]
      intro p hp
      rcases List.mem_cons.mp hp with hp0 | hp1
      · rw [hp0]
      · exact hc p hp1
    · have hfind2 : cache_find ((code, group_code_band code) :: cache) code =
          some (group_code_band code) := by
        simp [cache_find, List.find?]
      rw [hnew]
      simp [group_code_type, hfind2]
  · obtain ⟨p, hp⟩ : ∃ p, cache.find? (fun q => q.1 == code) = some p ∧
        p.2 = t := by
      rcases hfp : cache.find? (fun q => q.1 == code) with _ | p
      · simp [cache_find, hfp] at hfind
      · simp [cache_find, hfp] at hfind
        exact ⟨p, hfp, hfind⟩
    have hmem : p ∈ cache := List.mem_of_find?_eq_some hp.1
    have hkey : p.1 = code := by
      have := List.find?_some hp.1
      simpa using this
    have hval : t = group_code_band code := by
      rw [← hp.2, hc p hmem, hkey]
    have hcall : group_code_type cache code = (t, cache) := by
      simp [group_code_type, hfind]
    rw [hcall]
    exact ⟨hval, hc, by rw [hcall]⟩

/-- Witness for C8: the fresh cache is trivially correct and classifying
code 42 returns the band value (DECIMAL). -/
theorem group_code_type_idempotent_witness :
    (group_code_type [] 42).1 = group_code_band 42 ∧
    (group_code_type [] 42).1 = TagType.DECIMAL := by
  have hc : CacheOK [] := by intro p hp; cases hp
  exact ⟨(group_code_type_idempotent [] 42 hc).1, by decide⟩

/-- C9: for every table state, `has(0)` is `false` unconditionally; for a
non-zero handle, `has` agrees with `get` finding an entry; and `contains`
is exactly `has` of the object's handle. -/
theorem has_contains_spec (t : ObjectTable) :
    t.has 0 = false ∧
    (∀ h : Nat, h ≠ 0 → t.has h = (t.get h none).isSome) ∧
    (∀ o : Object, t.contains o = t.has o.get_handle) := by
  refine ⟨rfl, ?_, fun o => rfl⟩
  intro h hne
  have hb : (h != 0) = true := by simpa using hne
  simp [ObjectTable.has, hb]

/-- Witness for C9 at the fresh table and handle 5. -/
theorem has_contains_spec_witness :
    ObjectTable.init.has 5 = (ObjectTable.init.get 5 none).isSome :=
  (has_contains_spec ObjectTable.init).2.1 5 (by decide)

/-- C1 (documents the code bug): evaluating the source model at the failing
input — a fresh table, one successful `store` of the object with handle 1.
`get(1)` afterwards returns the `none` default instead of the stored
object, because `store` appended the entry to the by-value copy returned by
`get_bucket`; `size()` still reports 1. -/
theorem store_then_get_returns_none :
    (ObjectTable.init.store ⟨1, 42⟩).map
      (fun t => (t.get 1 none, t.size)) = .ok (none, 1) := rfl

/-- C2 (documents the code bug): storing handle 5 twice — the second store
is NOT rejected with the duplicate-binding error (the first binding was
never persisted, so `has(5)` is still false), `size()` reaches 2 and
`get(5)` returns neither object; only the handle-0 check behaves as
specified. -/
theorem duplicate_store_not_rejected :
    ((ObjectTable.init.store ⟨5, 1⟩).bind (fun t => t.store ⟨5, 2⟩)).map
      (fun t => (t.get 5 none, t.size)) = .ok (none, 2) ∧
    ObjectTable.init.store ⟨0, 3⟩ = .error .invalidHandle :=
  ⟨rfl, rfl⟩

/-- Helper: a successful `store` sets `max_handle` to the stored handle
when that exceeds the old maximum, and keeps the old maximum otherwise. -/
theorem store_ok_max (t : ObjectTable) (o : Object) (next : ObjectTable)
    (hst : t.store o = .ok next) :
    next.max_handle =
      if o.get_handle > t.max_handle then o.get_handle else t.max_handle := by
  simp only [ObjectTable.store] at hst
  split at hst
  · cases hst
  · split at hst
    · injection hst with h
      rw [← h]
    · cases hst

/-- Helper: under `noWrap`, every handle the allocator issues during a run
strictly exceeds the starting `max_handle`. -/
theorem issued_gt_start_max (ops : List TableOp) :
    ∀ t : ObjectTable, noWrap t ops = true → t.max_handle < 2 ^ 64 →
      ∀ w : Nat, TableEvent.issued w ∈ (runOps t ops).2 → t.max_handle < w := by
  induction ops with
  | nil =>
      intro t _ _ w hw
      simp [runOps] at hw
  | cons op rest ih =>
      intro t hnw hm w hw
      cases op with
      | acquire =>
          simp only [noWrap, Bool.and_eq_true, decide_eq_true_eq] at hnw
          obtain ⟨hlt, hnw2⟩ := hnw
          have hmod : (t.max_handle + 1) % 2 ^ 64 = t.max_handle + 1 :=
            Nat.mod_eq_of_lt hlt
          have ht2 : (t.aquire_free_handle).2.max_handle = t.max_handle + 1 := by
            show (t.max_handle + 1) % 2 ^ 64 = t.max_handle + 1
            exact hmod
          have hv1 : (t.aquire_free_handle).1 = t.max_handle + 1 := by
            show (t.max_handle + 1) % 2 ^ 64 = t.max_handle + 1
            exact hmod
          simp only [runOps, List.mem_cons] at hw
          rcases hw with heq | hmem
          · have hv : w = (t.aquire_free_handle).1 := by injection heq
            rw [hv1] at hv
            omega
          · have hrec := ih (t.aquire_free_handle).2 hnw2
              (by rw [ht2]; exact hlt) w hmem
            rw [ht2] at hrec
            omega
      | storeOp o =>
          simp only [noWrap, Bool.and_eq_true, decide_eq_true_eq] at hnw
          obtain ⟨hh, hnw2⟩ := hnw
          rcases hst : t.store o with e | next
          · simp only [hst] at hnw2
            simp only [runOps, hst] at hw
            exact ih t hnw2 hm w hw
          · simp only [hst] at hnw2
            have hmax := store_ok_max t o next hst
            have hle : t.max_handle ≤ next.max_handle := by
              rw [hmax]; split <;> omega
            have hm2 : next.max_handle < 2 ^ 64 := by
              rw [hmax]; split
              · exact hh
              · exact hm
            simp only [runOps, hst, List.mem_cons] at hw
            rcases hw with heq | hmem
            · exact absurd heq (fun h => TableEvent.noConfusion h)
            · have := ih next hnw2 hm2 w hmem
              omega

/-- Helper: under `noWrap`, the event list of a run is pairwise ordered —
every event's handle is strictly below every later issued handle. -/
theorem runOps_pairwise (ops : List TableOp) :
    ∀ t : ObjectTable, noWrap t ops = true → t.max_handle < 2 ^ 64 →
      (runOps t ops).2.Pairwise
        (fun a b => ∀ w : Nat, b = TableEvent.issued w → a.val < w) := by
  induction ops with
  | nil =>
      intro t _ _
      simp [runOps]
  | cons op rest ih =>
      intro t hnw hm
      cases op with
      | acquire =>
          simp only [noWrap, Bool.and_eq_true, decide_eq_true_eq] at hnw
          obtain ⟨hlt, hnw2⟩ := hnw
          have hmod : (t.max_handle + 1) % 2 ^ 64 = t.max_handle + 1 :=
            Nat.mod_eq_of_lt hlt
          have ht2 : (t.aquire_free_handle).2.max_handle = t.max_handle + 1 := by
            show (t.max_handle + 1) % 2 ^ 64 = t.max_handle + 1
            exact hmod
          have hv1 : (t.aquire_free_handle).1 = t.max_handle + 1 := by
            show (t.max_handle + 1) % 2 ^ 64 = t.max_handle + 1
            exact hmod
          have hm2 : (t.aquire_free_handle).2.max_handle < 2 ^ 64 := by
            rw [ht2]; exact hlt
          simp only [runOps]
          rw [List.pairwise_cons]
          constructor
          · intro b hb w hbw
            subst hbw
            have hgt := issued_gt_start_max rest (t.aquire_free_handle).2
              hnw2 hm2 w hb
            rw [ht2] at hgt
            simp only [TableEvent.val, hv1]
            omega
          · exact ih (t.aquire_free_handle).2 hnw2 hm2
      | storeOp o =>
          simp only [noWrap, Bool.and_eq_true, decide_eq_true_eq] at hnw
          obtain ⟨hh, hnw2⟩ := hnw
          rcases hst : t.store o with e | next
          · simp only [hst] at hnw2
            simp only [runOps, hst]
            exact ih t hnw2 hm
          · simp only [hst] at hnw2
            have hmax := store_ok_max t o next hst
            have hle : o.get_handle ≤ next.max_handle := by
              rw [hmax]; split <;> omega
            have hm2 : next.max_handle < 2 ^ 64 := by
              rw [hmax]; split
              · exact hh
              · exact hm
            simp only [runOps, hst]
            rw [List.pairwise_cons]
            constructor
            · intro b hb w hbw
              subst hbw
              have hgt := issued_gt_start_max rest next hnw2 hm2 w hb
              simp only [TableEvent.val]
              omega
            · exact ih next hnw2 hm2

/-- C4 (amended): from a fresh table, along any sequence of allocator calls
and stores in which the 64-bit counter never wraps (`noWrap`), every value
the allocator returns strictly exceeds every handle previously issued or
stored — in particular successive allocator calls return strictly
increasing values. -/
theorem aquire_free_handle_strictly_increasing (ops : List TableOp)
    (hw : noWrap ObjectTable.init ops = true) :
    (runOps ObjectTable.init ops).2.Pairwise
      (fun a b => ∀ w : Nat, b = TableEvent.issued w → a.val < w) :=
  runOps_pairwise ops ObjectTable.init hw (by decide)

/-- Witness for C4 at the concrete run `store(handle 1000); acquire`: the
run yields the events `[stored 1000, issued 1001]` and they satisfy the
pairwise ordering, so the allocator call after storing the externally
numbered handle 1000 returned a value greater than 1000. -/
theorem aquire_free_handle_strictly_increasing_witness :
    noWrap ObjectTable.init
        [TableOp.storeOp ⟨1000, 7⟩, TableOp.acquire] = true ∧
    (runOps ObjectTable.init
        [TableOp.storeOp ⟨1000, 7⟩, TableOp.acquire]).2 =
      [TableEvent.stored 1000, TableEvent.issued 1001] ∧
    (runOps ObjectTable.init
        [TableOp.storeOp ⟨1000, 7⟩, TableOp.acquire]).2.Pairwise
      (fun a b => ∀ w : Nat, b = TableEvent.issued w → a.val < w) :=
  ⟨by decide, by decide,
    aquire_free_handle_strictly_increasing
      [TableOp.storeOp ⟨1000, 7⟩, TableOp.acquire] (by decide)⟩

/-- C4 counterexample: the claim as stated fails on the code at a concrete
input — storing an object with the largest `uint64_t` handle `2 ^ 64 - 1`
succeeds, and the next `aquire_free_handle` (`return ++max_handle_`) wraps
the 64-bit counter to 0, which is not greater than the stored handle. -/
theorem aquire_free_handle_wraps_cex :
    (runOps ObjectTable.init
        [TableOp.storeOp ⟨2 ^ 64 - 1, 0⟩, TableOp.acquire]).2 =
      [TableEvent.stored (2 ^ 64 - 1), TableEvent.issued 0] ∧
    ¬ (runOps ObjectTable.init
        [TableOp.storeOp ⟨2 ^ 64 - 1, 0⟩, TableOp.acquire]).2.Pairwise
      (fun a b => ∀ w : Nat, b = TableEvent.issued w → a.val < w) := by
  have hrun : (runOps ObjectTable.init
      [TableOp.storeOp ⟨2 ^ 64 - 1, 0⟩, TableOp.acquire]).2 =
      [TableEvent.stored (2 ^ 64 - 1), TableEvent.issued 0] := by decide
  refine ⟨hrun, ?_⟩
  intro hp
  rw [hrun, List.pairwise_cons] at hp
  have := hp.1 (TableEvent.issued 0) (by simp) 0 rfl
  exact Nat.not_lt_zero _ this

end ezdxf
